import Mathlib

/-!
Verification of the `TopicSeries` orchestration in `modules/topics.py` of the
tweet-sentiment repository: flag-driven tokenization of annotated tweets,
per-period fitting of weighting/decomposition model pairs into four
date-keyed stores, and the reconstruction-error drift evaluation.

The external collaborators (spaCy annotation pipeline, scikit-learn
vectorizers and decompositions) are treated as black boxes: annotated
documents are lists of pre-computed token records, and the library is a
bundle of abstract fit/transform operations (`SkLib`) whose fit calls may
fail, mirroring the exceptions scikit-learn raises on degenerate input.
-/

namespace TweetTopics

/-- A spaCy token as consumed by `TopicSeries.twitter_tokenizer`: raw text,
lemma, and the boolean annotations the filter reads (`like_url`,
`_.is_piclink`, `is_stop`, `is_alpha`, `_.is_hashtag`). -/
structure Token where
  text : String
  lemma_ : String
  like_url : Bool
  is_piclink : Bool
  is_stop : Bool
  is_alpha : Bool
  is_hashtag : Bool
deriving DecidableEq

/-- Models Python `str.lower()`: per-character lowercasing. -/
def strLower (s : String) : String := String.mk (s.data.map Char.toLower)

/-- Surface form selected for a surviving token (lines 202-207 of
`topics.py`): the lemma if the `lemma` flag is set, else the raw text,
lowercased when the `lowercase` flag is set. -/
def tokenForm (t : Token) (lowercase lemma_ : Bool) : String :=
  let s := if lemma_ then t.lemma_ else t.text
  if lowercase then strLower s else s

/-- Embedding of `TopicSeries.twitter_tokenizer` (lines 156-209 of `topics.py`).
The Python conditions are translated with their actual parse:
`t.like_url or t._.is_piclink & urls`, `t.is_stop & stop_words`, and
`not (t.is_alpha & alpha_only)` — `&` binds tighter than `not` in Python,
so the third test negates the conjunction. Source defaults are
`urls=True, stop_words=True, lowercase=True, alpha_only=True,
hashtags=False, lemma=False`. -/
def twitter_tokenizer (doc : List Token)
    (urls stop_words lowercase alpha_only hashtags lemma_ : Bool) : List String :=
  match doc with
  | [] => []
  | t :: rest =>
    let tail := twitter_tokenizer rest urls stop_words lowercase alpha_only hashtags lemma_
    if t.like_url || (t.is_piclink && urls) then tail
    else if t.is_stop && stop_words then tail
    else if !(t.is_alpha && alpha_only) then
      if hashtags then tail
      else if !t.is_hashtag then tail
      else tokenForm t lowercase lemma_ :: tail
    else tokenForm t lowercase lemma_ :: tail

/-- The per-token keep/drop decision implicit in the loop body of
`twitter_tokenizer`: `true` exactly when the token survives every filter. -/
def keepTok (t : Token) (urls stop_words alpha_only hashtags : Bool) : Bool :=
  if t.like_url || (t.is_piclink && urls) then false
  else if t.is_stop && stop_words then false
  else if !(t.is_alpha && alpha_only) then
    if hashtags then false
    else t.is_hashtag
  else true

/-- A hashtag annotation used as a concrete test fixture: non-alphabetic,
flagged as hashtag, with no other flags set. -/
def hashTok : Token := ⟨ "#btc", "#btc", false, false, false, false, true⟩

/-- A trivial annotation built from a plain string: the claimed shape of a
re-tokenization input, with every boolean flag false. -/
def trivTok (s : String) : Token := ⟨s, s, false, false, false, false, false⟩

/-- A plain alphabetic annotation used as a concrete test fixture. -/
def alphaTok : Token := ⟨ "btc", "btc", false, false, false, true, false⟩

/-- A fitted `TfidfVectorizer` (identity tokenizer, `lowercase=False`):
all that later code uses is its `transform` on pre-tokenized documents. -/
structure TfidfModel (Mat : Type) where
  transform : List (List String) → Mat

/-- A fitted `NMF` model: its `transform`, its `components_` matrix and the
`reconstruction_err_` stored at fit time. -/
structure NMFModel (Mat Err : Type) where
  transform : Mat → Mat
  components : Mat
  reconstruction_err : Err

/-- The scikit-learn surface used by `topics.py`, as an abstract bundle:
matrix and error types, the four fit operations (returning `none` where
the library would raise, e.g. `ValueError` on an empty vocabulary), and
`_beta_divergence(·, ·, ·, frobenius, square_root=True)`. The fits of the
vectorizers return the fitted model together with the matrix produced by
`fit_transform`. -/
structure SkLib where
  Mat : Type
  Err : Type
  CVModel : Type
  LDAModel : Type
  tfidfFit : List (List String) → Option (TfidfModel Mat × Mat)
  cvFit : List (List String) → Option (CVModel × Mat)
  nmfFit : Nat → Nat → Mat → Option (NMFModel Mat Err)
  ldaFit : Nat → Nat → Mat → Option LDAModel
  betaDivFrobSqrt : Mat → Mat → Mat → Err

/-- Error taxonomy of the spec. In the source these surface as library
exceptions: `fitError` is the `ValueError` scikit-learn raises on a
degenerate fit, `missingModelError` is the `KeyError` of a dictionary
lookup at a never-fitted label. `boundaryError` appears in the spec's
taxonomy only; no code in `topics.py` raises it. -/
inductive TopicsError where
  | fitError
  | missingModelError
  | boundaryError
deriving DecidableEq

/-- The `TopicSeries` instance state: configuration plus the four
date-keyed model stores (`cv_dict`, `tfidf_dict`, `nmf_dict`, `lda_dict`),
modelled as insertion-ordered association lists, as Python dicts are.
Keys are calendar dates (`str(ts.date())`), modelled as integers. -/
structure TopicSeries (L : SkLib) where
  n_components : Nat
  random_state : Nat
  cv_dict : List (Int × L.CVModel)
  tfidf_dict : List (Int × TfidfModel L.Mat)
  nmf_dict : List (Int × NMFModel L.Mat L.Err)
  lda_dict : List (Int × L.LDAModel)

/-- Embedding of `TopicSeries.__init__`: configuration stored, all four stores empty. -/
def mkSeries (L : SkLib) (n_components random_state : Nat) : TopicSeries L :=
  ⟨n_components, random_state, [], [], [], []⟩

/-- Python dict assignment `d[k] = v`: update in place if the key exists,
else append (dicts preserve insertion order). -/
def dinsert {α : Type} (m : List (Int × α)) (k : Int) (v : α) :
    List (Int × α) :=
  match m with
  | [] => [(k, v)]
  | (k2, v2) :: rest => if k2 = k then (k, v) :: rest else (k2, v2) :: dinsert rest k v

/-- Python dict lookup `d[k]`, with `none` for the `KeyError` case. -/
def dget? {α : Type} (m : List (Int × α)) (k : Int) : Option α :=
  match m with
  | [] => none
  | (k2, v2) :: rest => if k2 = k then some v2 else dget? rest k

/-- Models `str(timestamp.date())` for an epoch-second timestamp: the
calendar day index (floor division by 86400 seconds). -/
def dateOf (t : Int) : Int := Int.fdiv t 86400

/-- The input corpus: rows of (epoch-second timestamp, annotated tweet).
The tweet column already carries the spaCy annotations, since the NLP
pipeline is an external black box applied row by row by `nlp.pipe`. -/
def Corpus : Type := List (Int × List Token)

/-- Lines 92-94 / 126-128 of `topics.py`:
`df[date_range[i] : date_range[i+1] - dt.timedelta(seconds=1)].tweet`
followed by `twitter_tokenizer` with default flags on every row. Pandas
label slicing is inclusive at both ends, so the slice keeps rows with
`a <= ts <= b - 1`. -/
def tokenizedSlice (df : Corpus) (a b : Int) : List (List String) :=
  (df.filter (fun r => decide (a ≤ r.1) && decide (r.1 ≤ b - 1))).map
    (fun r => twitter_tokenizer r.2 true true true true false false)

/-- Whether a fit input is degenerate for scikit-learn's vectorizers: no
documents at all, or every document tokenized to nothing (with the
identity tokenizer the learned vocabulary is then empty); both raise
`ValueError` in the library. -/
def degenerate (docs : List (List String)) : Bool :=
  docs.all List.isEmpty

/-- Embedding of `TopicSeries.calculate_nmf` (lines 36-54): fit TF-IDF on the data,
fit NMF on the TF-IDF matrix, then — only after both fits succeeded —
store both models under `date`. A raised exception leaves the state
untouched and propagates (`some error`). -/
def calculate_nmf (L : SkLib) (s : TopicSeries L) (date : Int)
    (data : List (List String)) : TopicSeries L × Option TopicsError :=
  match L.tfidfFit data with
  | none => (s, some .fitError)
  | some (tfidf, tfidf_vecs) =>
    match L.nmfFit s.n_components s.random_state tfidf_vecs with
    | none => (s, some .fitError)
    | some nmf =>
      ({ s with tfidf_dict := dinsert s.tfidf_dict date tfidf,
                nmf_dict := dinsert s.nmf_dict date nmf }, none)

/-- Embedding of `TopicSeries.calculate_lda` (lines 56-74): fit CountVectorizer, fit
LDA on the count matrix, then store both models under `date`. -/
def calculate_lda (L : SkLib) (s : TopicSeries L) (date : Int)
    (data : List (List String)) : TopicSeries L × Option TopicsError :=
  match L.cvFit data with
  | none => (s, some .fitError)
  | some (cv, count_vecs) =>
    match L.ldaFit s.n_components s.random_state count_vecs with
    | none => (s, some .fitError)
    | some lda =>
      ({ s with cv_dict := dinsert s.cv_dict date cv,
                lda_dict := dinsert s.lda_dict date lda }, none)

/-- The adjacent boundary pairs `(date_range[i], date_range[i+1])` for
`i in range(len(date_range) - 1)`. -/
def adjPairs (dr : List Int) : List (Int × Int) := dr.zip dr.tail

/-- The loop of `TopicSeries.fit` (lines 87-98) over the adjacent boundary
pairs: slice, tokenize, `calculate_nmf`, `calculate_lda`; a raised error
aborts the loop, leaving the state reached so far. -/
def fitPairs (L : SkLib) (s : TopicSeries L) (df : Corpus) :
    List (Int × Int) → TopicSeries L × Option TopicsError
  | [] => (s, none)
  | p :: rest =>
    let sub_df := tokenizedSlice df p.1 p.2
    match calculate_nmf L s (dateOf p.2) sub_df with
    | (s1, some e) => (s1, some e)
    | (s1, none) =>
      match calculate_lda L s1 (dateOf p.2) sub_df with
      | (s2, some e) => (s2, some e)
      | (s2, none) => fitPairs L s2 df rest

/-- Embedding of `TopicSeries.fit` (lines 76-100). -/
def fit (L : SkLib) (s : TopicSeries L) (df : Corpus) (dr : List Int) :
    TopicSeries L × Option TopicsError :=
  fitPairs L s df (adjPairs dr)

/-- The loop of `TopicSeries.calc_rec_error` (lines 117-146) over the
adjacent boundary pairs: slice and tokenize the current period, transform
it with the previous period's TF-IDF model (line 130, `KeyError` if that
label was never fitted), compute `_beta_divergence` of the matrix against
the previous period's NMF transform and components (lines 133-137), and
read the current period's stored `reconstruction_err_` (line 139). The
two error lists are accumulated in loop order. -/
def calcPairs (L : SkLib) (s : TopicSeries L) (df : Corpus) :
    List (Int × Int) →
      TopicSeries L × Except TopicsError (List L.Err × List L.Err)
  | [] => (s, .ok ([], []))
  | p :: rest =>
    let sub_df := tokenizedSlice df p.1 p.2
    match dget? s.tfidf_dict (dateOf p.1) with
    | none => (s, .error .missingModelError)
    | some tfidf =>
      match dget? s.nmf_dict (dateOf p.1) with
      | none => (s, .error .missingModelError)
      | some nmfPrev =>
        let tfidf_vecs := tfidf.transform sub_df
        let new_rec_err := L.betaDivFrobSqrt tfidf_vecs
          (nmfPrev.transform tfidf_vecs) nmfPrev.components
        match dget? s.nmf_dict (dateOf p.2) with
        | none => (s, .error .missingModelError)
        | some nmfCur =>
          match calcPairs L s df rest with
          | (s3, .error e) => (s3, .error e)
          | (s3, .ok (model_err, new_err)) =>
            (s3, .ok (nmfCur.reconstruction_err :: model_err,
                      new_rec_err :: new_err))

/-- Embedding of `TopicSeries.calc_rec_error` (lines 102-146). -/
def calc_rec_error (L : SkLib) (s : TopicSeries L) (df : Corpus)
    (dr : List Int) :
    TopicSeries L × Except TopicsError (List L.Err × List L.Err) :=
  calcPairs L s df (adjPairs dr)

/-- The "own" error of a boundary pair: the stored reconstruction error of
the current period's NMF model (line 139), when that label is present. -/
def ownErr? (L : SkLib) (s : TopicSeries L) (p : Int × Int) : Option L.Err :=
  (dget? s.nmf_dict (dateOf p.2)).map (fun m => m.reconstruction_err)

/-- The "carried" error of a boundary pair: the current period's data
transformed by the previous period's TF-IDF model, measured by the
square-rooted Frobenius beta-divergence against the previous period's NMF
transform and components (lines 126-137), when those labels are present. -/
def carriedErr? (L : SkLib) (s : TopicSeries L) (df : Corpus)
    (p : Int × Int) : Option L.Err :=
  (dget? s.tfidf_dict (dateOf p.1)).bind fun tfidf =>
    (dget? s.nmf_dict (dateOf p.1)).map fun nmfPrev =>
      let v := tfidf.transform (tokenizedSlice df p.1 p.2)
      L.betaDivFrobSqrt v (nmfPrev.transform v) nmfPrev.components

/-- The documented failure contract of the scikit-learn calls as used
here: the vectorizer fits raise exactly on degenerate input (empty
document set or empty vocabulary), and the decomposition fits accept any
matrix the vectorizers produce. -/
structure GoodLib (L : SkLib) : Prop where
  tfidf_none : ∀ docs, L.tfidfFit docs = none ↔ degenerate docs = true
  cv_none : ∀ docs, L.cvFit docs = none ↔ degenerate docs = true
  nmf_some : ∀ k r m, (L.nmfFit k r m).isSome = true
  lda_some : ∀ k r m, (L.ldaFit k r m).isSome = true

/-- The Series Store pairing invariant: every period label present in a
decomposition store is present in its paired weighting store (NMF with
TF-IDF, LDA with counts). -/
def storeInv (L : SkLib) (s : TopicSeries L) : Prop :=
  (∀ k, (dget? s.nmf_dict k).isSome = true →
    (dget? s.tfidf_dict k).isSome = true)
  ∧ (∀ k, (dget? s.lda_dict k).isSome = true →
    (dget? s.cv_dict k).isSome = true)

/-- A concrete toy library instance used to exercise the theorems:
matrices and errors are natural numbers, the vectorizer fits fail exactly
on degenerate input, and the divergence adds its three arguments. -/
def toyL : SkLib where
  Mat := Nat
  Err := Nat
  CVModel := Unit
  LDAModel := Unit
  tfidfFit := fun docs =>
    if degenerate docs then none else some (⟨fun ds => ds.length⟩, docs.length)
  cvFit := fun docs =>
    if degenerate docs then none else some ((), docs.length)
  nmfFit := fun _ _ m => some ⟨fun x => x + 1, 3, m⟩
  ldaFit := fun _ _ _ => some ()
  betaDivFrobSqrt := fun a b c => a + b + c

/-- A toy fitted store: TF-IDF and NMF entries for day 0 and an NMF entry
for day 1, used to instantiate the drift-evaluation theorems. -/
def sTest : TopicSeries toyL :=
  ⟨2, 42, [], [(0, (⟨fun ds => ds.length⟩ : TfidfModel Nat))],
   [(0, (⟨fun x => x + 1, 3, 7⟩ : NMFModel Nat Nat)),
    (1, (⟨fun x => x + 1, 3, 5⟩ : NMFModel Nat Nat))], []⟩

/-- A toy two-day corpus with one alphabetic tweet per day. -/
def dfTest : Corpus := [(0, [alphaTok]), (86400, [alphaTok])]

theorem twitter_tokenizer_eq_filter_map (doc : List Token)
    (u sw lc ao ht lm : Bool) :
    twitter_tokenizer doc u sw lc ao ht lm
      = (doc.filter (fun t => keepTok t u sw ao ht)).map
          (fun t => tokenForm t lc lm) := by
  induction doc with
  | nil => rfl
  | cons t rest ih =>
    rw [twitter_tokenizer]
    cases h1 : t.like_url || (t.is_piclink && u) with
    | true => simp [List.filter, keepTok, h1, ih]
    | false =>
      cases h2 : t.is_stop && sw with
      | true => simp [List.filter, keepTok, h1, h2, ih]
      | false =>
        cases h3 : !(t.is_alpha && ao) with
        | true =>
          cases ht with
          | true => simp [List.filter, keepTok, h1, h2, h3, ih]
          | false =>
            cases h4 : t.is_hashtag <;>
              simp [List.filter, keepTok, h1, h2, h3, h4, ih]
        | false => simp [List.filter, keepTok, h1, h2, h3, ih]

/-- C4: under the default flags (`urls=True, stop_words=True,
lowercase=True, alpha_only=True, hashtags=False, lemma=False`),
`twitter_tokenizer` returns the forms of a sublist of the document's
annotations (hence order-preserving), none of which is a stopword, and the
output length is at most the number of annotations. -/
theorem c4_tokenize_default_flags (doc : List Token) :
    ∃ kept : List Token,
      kept.Sublist doc
      ∧ (∀ t ∈ kept, t.is_stop = false)
      ∧ twitter_tokenizer doc true true true true false false
          = kept.map (fun t => tokenForm t true false)
      ∧ (twitter_tokenizer doc true true true true false false).length
          ≤ doc.length := by
  refine ⟨doc.filter (fun t => keepTok t true true true false),
    List.filter_sublist doc, ?_, twitter_tokenizer_eq_filter_map doc _ _ _ _ _ _, ?_⟩
  · intro t ht
    have hk := List.of_mem_filter ht
    by_contra hs
    rw [Bool.not_eq_false] at hs
    simp [keepTok, hs] at hk
  · rw [twitter_tokenizer_eq_filter_map, List.length_map]
    exact List.length_filter_le _ doc

/-- C5: with `alpha_only=true` and `hashtags=false` (and any values of the
remaining flags), a non-alphabetic annotation flagged as a hashtag that is
not url-like, not a picture link and not a stopword survives the filter:
the hashtag exception overrides the alpha-only exclusion, wherever the
annotation occurs in the document. -/
theorem c5_hashtag_overrides_alpha_only (pre post : List Token) (t : Token)
    (u sw lc lm : Bool)
    (halpha : t.is_alpha = false) (hhash : t.is_hashtag = true)
    (hurl : t.like_url = false) (hpic : t.is_piclink = false)
    (hstop : t.is_stop = false) :
    twitter_tokenizer (pre ++ t :: post) u sw lc true false lm
      = twitter_tokenizer pre u sw lc true false lm
        ++ tokenForm t lc lm :: twitter_tokenizer post u sw lc true false lm := by
  have hk : keepTok t u sw true false = true := by
    simp [keepTok, halpha, hhash, hurl, hpic, hstop]
  simp [twitter_tokenizer_eq_filter_map, List.filter_append, List.filter_cons, hk]

theorem c5_witness :
    twitter_tokenizer [hashTok] true true true true false false = [ "#btc" ] := by
  have h := c5_hashtag_overrides_alpha_only [] [] hashTok true true true false
    rfl rfl rfl rfl rfl
  rw [show [hashTok] = [] ++ hashTok :: [] from rfl, h]
  decide

/-- C6 (code behavior at the claimed scenario): re-running
`twitter_tokenizer` on any previous output, each output string wrapped as
an annotation with all flags false, with `alpha_only=false,
stop_words=false, urls=false` and the remaining flags at their defaults,
returns the empty list — not the input sequence. Because Python parses
`not t.is_alpha & alpha_only` as `not (t.is_alpha & alpha_only)`, setting
`alpha_only=False` sends every token into the exclusion branch, and with
`hashtags=False` every non-hashtag token is dropped. -/
theorem c6_rerun_returns_empty (out : List String) :
    twitter_tokenizer (out.map trivTok) false false true false false false
      = [] := by
  induction out with
  | nil => rfl
  | cons s rest ih => simpa [twitter_tokenizer, trivTok] using ih

theorem dget?_dinsert_self {α : Type} (m : List (Int × α)) (k : Int) (v : α) :
    dget? (dinsert m k v) k = some v := by
  induction m with
  | nil => simp [dinsert, dget?]
  | cons hd rest ih =>
    obtain ⟨k2, v2⟩ := hd
    by_cases hk : k2 = k
    · simp [dinsert, hk, dget?]
    · simp [dinsert, hk, dget?, ih]

theorem dget?_dinsert_ne {α : Type} (m : List (Int × α)) (k k' : Int) (v : α)
    (h : k' ≠ k) :
    dget? (dinsert m k v) k' = dget? m k' := by
  induction m with
  | nil => simp [dinsert, dget?, Ne.symm h]
  | cons hd rest ih =>
    obtain ⟨k2, v2⟩ := hd
    by_cases hk : k2 = k
    · subst hk
      simp [dinsert, dget?, Ne.symm h]
    · by_cases hk' : k2 = k'
      · simp [dinsert, hk, dget?, hk', h]
      · simp [dinsert, hk, dget?, hk', ih]

theorem map_fst_dinsert {α : Type} (m : List (Int × α)) (k : Int) (v : α)
    (h : k ∉ m.map Prod.fst) :
    (dinsert m k v).map Prod.fst = m.map Prod.fst ++ [k] := by
  induction m with
  | nil => rfl
  | cons hd rest ih =>
    obtain ⟨k2, v2⟩ := hd
    simp only [List.map_cons, List.mem_cons] at h
    push_neg at h
    simp [dinsert, Ne.symm h.1, ih h.2]

theorem calcPairs_fst (L : SkLib) (s : TopicSeries L) (df : Corpus) :
    ∀ pairs : List (Int × Int), (calcPairs L s df pairs).1 = s := by
  intro pairs
  induction pairs with
  | nil => rfl
  | cons p rest ih =>
    rw [calcPairs]
    cases h1 : dget? s.tfidf_dict (dateOf p.1) with
    | none => rfl
    | some tfidf =>
      cases h2 : dget? s.nmf_dict (dateOf p.1) with
      | none => rfl
      | some nmfPrev =>
        cases h3 : dget? s.nmf_dict (dateOf p.2) with
        | none => rfl
        | some nmfCur =>
          cases hrec : calcPairs L s df rest with
          | mk s3 r =>
            have hs3 : s3 = s := by
              have := ih
              rw [hrec] at this
              exact this
            cases r with
            | error e => simp [hrec, hs3]
            | ok v =>
              obtain ⟨me, ne⟩ := v
              simp [hrec, hs3]

/-- C10: `calc_rec_error` never modifies the series instance: the state —
configuration fields and all four model stores — comes back exactly as
given, for every corpus and boundary sequence. -/
theorem c10_calc_rec_error_preserves_state (L : SkLib) (s : TopicSeries L)
    (df : Corpus) (dr : List Int) :
    (calc_rec_error L s df dr).1 = s :=
  calcPairs_fst L s df (adjPairs dr)

/-- C3: if the label of the first boundary — the previous period of the
first pair — was never fitted (in particular, when `calc_rec_error` is
called before any `fit`), the evaluation over at least one boundary pair
fails with `MissingModelError` (the `KeyError` of the TF-IDF lookup on
line 130). -/
theorem c3_missing_previous_model (L : SkLib) (s : TopicSeries L)
    (df : Corpus) (a b : Int) (rest : List Int)
    (h : dget? s.tfidf_dict (dateOf a) = none) :
    (calc_rec_error L s df (a :: b :: rest)).2
      = Except.error TopicsError.missingModelError := by
  have hadj : adjPairs (a :: b :: rest) = (a, b) :: adjPairs (b :: rest) := rfl
  rw [calc_rec_error, hadj, calcPairs]
  simp [h]

theorem c3_witness :
    (calc_rec_error toyL (mkSeries toyL 2 42) [] [0, 86400]).2
      = Except.error TopicsError.missingModelError :=
  c3_missing_previous_model toyL (mkSeries toyL 2 42) [] 0 86400 [] rfl

/-- C7 counterexample: a single-timestamp boundary sequence raises no
`BoundaryError` — and no error at all: `fit` returns its state unchanged
with no error, and `calc_rec_error` returns two empty error lists. -/
theorem c7_counterexample :
    fit toyL (mkSeries toyL 2 42) [] [0] = (mkSeries toyL 2 42, none)
    ∧ (calc_rec_error toyL (mkSeries toyL 2 42) [] [0]).2 = Except.ok ([], [])
    ∧ (fit toyL (mkSeries toyL 2 42) [] [0]).2
        ≠ some TopicsError.boundaryError :=
  ⟨rfl, rfl, by simp [fit, adjPairs, fitPairs]⟩

/-- C7 amended: neither `fit` nor `calc_rec_error` validates the boundary
sequence; with fewer than two entries the pair loop is empty, so `fit`
returns its state unchanged with no error and `calc_rec_error` returns
two empty error lists — no `BoundaryError` is raised. -/
theorem c7_no_boundary_validation (L : SkLib) (s : TopicSeries L)
    (df : Corpus) (dr : List Int) (h : dr.length < 2) :
    fit L s df dr = (s, none)
    ∧ (calc_rec_error L s df dr).2 = Except.ok ([], []) := by
  match dr with
  | [] => exact ⟨rfl, rfl⟩
  | [t] => exact ⟨rfl, rfl⟩
  | a :: b :: rest => simp at h; omega

theorem calcPairs_ok_of_fitted (L : SkLib) (s : TopicSeries L) (df : Corpus) :
    ∀ pairs : List (Int × Int),
      (∀ p ∈ pairs, (carriedErr? L s df p).isSome = true
        ∧ (ownErr? L s p).isSome = true) →
      ∃ me ne, calcPairs L s df pairs = (s, .ok (me, ne))
        ∧ me.map some = pairs.map (fun p => ownErr? L s p)
        ∧ ne.map some = pairs.map (fun p => carriedErr? L s df p) := by
  intro pairs
  induction pairs with
  | nil => exact fun _ => ⟨[], [], rfl, rfl, rfl⟩
  | cons p rest ih =>
    intro h
    obtain ⟨hc, ho⟩ := h p (List.mem_cons_self p rest)
    cases h1 : dget? s.tfidf_dict (dateOf p.1) with
    | none => rw [carriedErr?, h1] at hc; simp at hc
    | some tfidf =>
      cases h2 : dget? s.nmf_dict (dateOf p.1) with
      | none => rw [carriedErr?, h1, h2] at hc; simp at hc
      | some nmfPrev =>
        cases h3 : dget? s.nmf_dict (dateOf p.2) with
        | none => rw [ownErr?, h3] at ho; simp at ho
        | some nmfCur =>
          obtain ⟨me, ne, hrec, hmo, hno⟩ :=
            ih (fun q hq => h q (List.mem_cons_of_mem p hq))
          refine ⟨nmfCur.reconstruction_err :: me,
            L.betaDivFrobSqrt (tfidf.transform (tokenizedSlice df p.1 p.2))
              (nmfPrev.transform (tfidf.transform (tokenizedSlice df p.1 p.2)))
              nmfPrev.components :: ne, ?_, ?_, ?_⟩
          · rw [calcPairs, h1, h2, h3, hrec]
          · simp [List.map_cons, hmo, ownErr?, h3]
          · simp [List.map_cons, hno, carriedErr?, h1, h2]

/-- C1: when every boundary pair's previous and current periods have been
fitted, `calc_rec_error` succeeds and returns two equal-length lists, one
entry per boundary pair in chronological boundary order: the first list
holds each current period's own stored reconstruction error, the second
the carried error — the square-rooted Frobenius beta-divergence between
the current period's data under the previous period's TF-IDF model and
its reconstruction from the previous period's NMF transform and
components. -/
theorem c1_calc_rec_error_series (L : SkLib) (s : TopicSeries L)
    (df : Corpus) (dr : List Int)
    (h : ∀ p ∈ adjPairs dr, (carriedErr? L s df p).isSome = true
      ∧ (ownErr? L s p).isSome = true) :
    ∃ me ne, (calc_rec_error L s df dr).2 = Except.ok (me, ne)
      ∧ me.length = (adjPairs dr).length
      ∧ ne.length = (adjPairs dr).length
      ∧ me.map some = (adjPairs dr).map (fun p => ownErr? L s p)
      ∧ ne.map some = (adjPairs dr).map (fun p => carriedErr? L s df p) := by
  obtain ⟨me, ne, hcalc, hmo, hno⟩ :=
    calcPairs_ok_of_fitted L s df (adjPairs dr) h
  refine ⟨me, ne, by rw [calc_rec_error, hcalc], ?_, ?_, hmo, hno⟩
  · have := congrArg List.length hmo
    simpa using this
  · have := congrArg List.length hno
    simpa using this

theorem c1_witness :
    ∃ me ne, (calc_rec_error toyL sTest [] [0, 86400]).2 = Except.ok (me, ne)
      ∧ me.length = (adjPairs [0, 86400]).length
      ∧ ne.length = (adjPairs [0, 86400]).length
      ∧ me.map some = (adjPairs [0, 86400]).map (fun p => ownErr? toyL sTest p)
      ∧ ne.map some
          = (adjPairs [0, 86400]).map (fun p => carriedErr? toyL sTest [] p) :=
  c1_calc_rec_error_series toyL sTest [] [0, 86400] (by
    intro p hp
    have hp' : p = ((0 : Int), (86400 : Int)) := by
      simpa [adjPairs] using hp
    subst hp'
    exact ⟨rfl, rfl⟩)

theorem c7_witness :
    fit toyL (mkSeries toyL 2 42) [] [5] = (mkSeries toyL 2 42, none)
    ∧ (calc_rec_error toyL (mkSeries toyL 2 42) [] [5]).2
        = Except.ok ([], []) :=
  c7_no_boundary_validation toyL (mkSeries toyL 2 42) [] [5] (by decide)

theorem storeInv_calculate_nmf (L : SkLib) (s : TopicSeries L) (date : Int)
    (data : List (List String)) (h : storeInv L s) :
    storeInv L (calculate_nmf L s date data).1 := by
  cases hf : L.tfidfFit data with
  | none => simpa [calculate_nmf, hf] using h
  | some q =>
    obtain ⟨tfidf, tfidf_vecs⟩ := q
    cases hn : L.nmfFit s.n_components s.random_state tfidf_vecs with
    | none => simpa [calculate_nmf, hf, hn] using h
    | some nmf =>
      have hcn : (calculate_nmf L s date data).1
          = { s with tfidf_dict := dinsert s.tfidf_dict date tfidf,
                     nmf_dict := dinsert s.nmf_dict date nmf } := by
        simp [calculate_nmf, hf, hn]
      rw [hcn]
      refine ⟨fun k hk => ?_, fun k hk => h.2 k hk⟩
      dsimp only at hk ⊢
      by_cases hkd : k = date
      · subst hkd
        rw [dget?_dinsert_self]
        rfl
      · rw [dget?_dinsert_ne _ _ _ _ hkd] at hk
        rw [dget?_dinsert_ne _ _ _ _ hkd]
        exact h.1 k hk

theorem storeInv_calculate_lda (L : SkLib) (s : TopicSeries L) (date : Int)
    (data : List (List String)) (h : storeInv L s) :
    storeInv L (calculate_lda L s date data).1 := by
  cases hf : L.cvFit data with
  | none => simpa [calculate_lda, hf] using h
  | some q =>
    obtain ⟨cv, count_vecs⟩ := q
    cases hl : L.ldaFit s.n_components s.random_state count_vecs with
    | none => simpa [calculate_lda, hf, hl] using h
    | some lda =>
      have hcl : (calculate_lda L s date data).1
          = { s with cv_dict := dinsert s.cv_dict date cv,
                     lda_dict := dinsert s.lda_dict date lda } := by
        simp [calculate_lda, hf, hl]
      rw [hcl]
      refine ⟨fun k hk => h.1 k hk, fun k hk => ?_⟩
      dsimp only at hk ⊢
      by_cases hkd : k = date
      · subst hkd
        rw [dget?_dinsert_self]
        rfl
      · rw [dget?_dinsert_ne _ _ _ _ hkd] at hk
        rw [dget?_dinsert_ne _ _ _ _ hkd]
        exact h.2 k hk

theorem storeInv_fitPairs (L : SkLib) (df : Corpus) :
    ∀ (pairs : List (Int × Int)) (s : TopicSeries L), storeInv L s →
      storeInv L (fitPairs L s df pairs).1 := by
  intro pairs
  induction pairs with
  | nil => exact fun s h => h
  | cons p rest ih =>
    intro s h
    cases hn : calculate_nmf L s (dateOf p.2) (tokenizedSlice df p.1 p.2) with
    | mk s1 e1 =>
      have h1 : storeInv L s1 := by
        have hh := storeInv_calculate_nmf L s (dateOf p.2)
          (tokenizedSlice df p.1 p.2) h
        rw [hn] at hh
        exact hh
      cases e1 with
      | some e =>
        have hfp : fitPairs L s df (p :: rest) = (s1, some e) := by
          simp [fitPairs, hn]
        rw [hfp]
        exact h1
      | none =>
        cases hl : calculate_lda L s1 (dateOf p.2) (tokenizedSlice df p.1 p.2) with
        | mk s2 e2 =>
          have h2 : storeInv L s2 := by
            have hh := storeInv_calculate_lda L s1 (dateOf p.2)
              (tokenizedSlice df p.1 p.2) h1
            rw [hl] at hh
            exact hh
          cases e2 with
          | some e =>
            have hfp : fitPairs L s df (p :: rest) = (s2, some e) := by
              simp [fitPairs, hn, hl]
            rw [hfp]
            exact h2
          | none =>
            have hfp : fitPairs L s df (p :: rest) = fitPairs L s2 df rest := by
              simp [fitPairs, hn, hl]
            rw [hfp]
            exact ih s2 h2

/-- C9: the Series Store pairing invariant — every label present in a
decomposition store is present in its paired weighting store — is
preserved by every operation, including runs aborted by a failed period:
each weighting+decomposition pair is written together after both fits
succeed, never one without the other. -/
theorem c9_store_invariant (L : SkLib) (s : TopicSeries L) (date : Int)
    (data : List (List String)) (df : Corpus) (dr : List Int)
    (h : storeInv L s) :
    storeInv L (calculate_nmf L s date data).1
    ∧ storeInv L (calculate_lda L s date data).1
    ∧ storeInv L (fit L s df dr).1
    ∧ storeInv L (calc_rec_error L s df dr).1 := by
  refine ⟨storeInv_calculate_nmf L s date data h,
    storeInv_calculate_lda L s date data h,
    storeInv_fitPairs L df (adjPairs dr) s h, ?_⟩
  rw [calc_rec_error, calcPairs_fst]
  exact h

theorem c9_witness :
    storeInv toyL (calculate_nmf toyL (mkSeries toyL 2 42) 0 [ [ "btc" ] ]).1
    ∧ storeInv toyL (calculate_lda toyL (mkSeries toyL 2 42) 0 [ [ "btc" ] ]).1
    ∧ storeInv toyL (fit toyL (mkSeries toyL 2 42) dfTest [0, 86400]).1
    ∧ storeInv toyL
        (calc_rec_error toyL (mkSeries toyL 2 42) dfTest [0, 86400]).1 :=
  c9_store_invariant toyL (mkSeries toyL 2 42) 0 [ [ "btc" ] ] dfTest [0, 86400]
    (by
      constructor <;> intro k hk <;> simp [mkSeries, dget?] at hk)

theorem fitPairs_degenerate (L : SkLib) (hL : GoodLib L) (df : Corpus) :
    ∀ (pairs : List (Int × Int)) (s : TopicSeries L),
      (∃ p ∈ pairs, degenerate (tokenizedSlice df p.1 p.2) = true) →
      (fitPairs L s df pairs).2 = some TopicsError.fitError := by
  intro pairs
  induction pairs with
  | nil => intro s h; simp at h
  | cons p rest ih =>
    intro s h
    by_cases hd : degenerate (tokenizedSlice df p.1 p.2) = true
    · have hf : L.tfidfFit (tokenizedSlice df p.1 p.2) = none :=
        (hL.tfidf_none _).mpr hd
      simp [fitPairs, calculate_nmf, hf]
    · obtain ⟨q, hq, hqd⟩ := h
      have hq' : q ∈ rest := by
        rcases List.mem_cons.mp hq with hqp | hqr
        · exact absurd (hqp ▸ hqd) hd
        · exact hqr
      cases hf : L.tfidfFit (tokenizedSlice df p.1 p.2) with
      | none => exact absurd ((hL.tfidf_none _).mp hf) hd
      | some qf =>
        obtain ⟨tfidf, tfidf_vecs⟩ := qf
        cases hn : L.nmfFit s.n_components s.random_state tfidf_vecs with
        | none =>
          have := hL.nmf_some s.n_components s.random_state tfidf_vecs
          rw [hn] at this
          simp at this
        | some nmf =>
          cases hc : L.cvFit (tokenizedSlice df p.1 p.2) with
          | none => exact absurd ((hL.cv_none _).mp hc) hd
          | some qc =>
            obtain ⟨cv, count_vecs⟩ := qc
            cases hl : L.ldaFit s.n_components s.random_state count_vecs with
            | none =>
              have := hL.lda_some s.n_components s.random_state count_vecs
              rw [hl] at this
              simp at this
            | some lda =>
              have hfp := ih
                { s with tfidf_dict := dinsert s.tfidf_dict (dateOf p.2) tfidf,
                         nmf_dict := dinsert s.nmf_dict (dateOf p.2) nmf,
                         cv_dict := dinsert s.cv_dict (dateOf p.2) cv,
                         lda_dict := dinsert s.lda_dict (dateOf p.2) lda }
                ⟨q, hq', hqd⟩
              simp only [fitPairs, calculate_nmf, calculate_lda, hf, hn, hc, hl]
              exact hfp

/-- C8: if any period's tokenized data slice is empty, or every document
in it tokenizes to nothing so the vocabulary would be empty, `fit` fails
with the fit error (scikit-learn's `ValueError`, the spec's `FitError`),
which propagates to the caller of `fit` rather than being swallowed. -/
theorem c8_degenerate_period_fit_error (L : SkLib) (s : TopicSeries L)
    (df : Corpus) (dr : List Int) (hL : GoodLib L)
    (h : ∃ p ∈ adjPairs dr, degenerate (tokenizedSlice df p.1 p.2) = true) :
    (fit L s df dr).2 = some TopicsError.fitError :=
  fitPairs_degenerate L hL df (adjPairs dr) s h

theorem toyL_good : GoodLib toyL := by
  constructor
  · intro docs
    by_cases hdg : degenerate docs = true <;> simp [toyL, hdg]
  · intro docs
    by_cases hdg : degenerate docs = true <;> simp [toyL, hdg]
  · intro k r m
    rfl
  · intro k r m
    rfl

theorem c8_witness :
    (fit toyL (mkSeries toyL 2 42) [] [0, 86400]).2
      = some TopicsError.fitError :=
  c8_degenerate_period_fit_error toyL (mkSeries toyL 2 42) [] [0, 86400]
    toyL_good ⟨(0, 86400), by simp [adjPairs], rfl⟩

theorem adjPairs_map_snd (dr : List Int) :
    (adjPairs dr).map Prod.snd = dr.tail := by
  rw [adjPairs]
  exact List.map_snd_zip dr dr.tail (by cases dr <;> simp)

theorem fitPairs_fresh (L : SkLib) (hL : GoodLib L) (df : Corpus) :
    ∀ (pairs : List (Int × Int)) (s : TopicSeries L),
      (∀ q ∈ pairs, degenerate (tokenizedSlice df q.1 q.2) = false) →
      (pairs.map (fun q => dateOf q.2)).Nodup →
      (∀ q ∈ pairs, dateOf q.2 ∉ s.tfidf_dict.map Prod.fst
        ∧ dateOf q.2 ∉ s.nmf_dict.map Prod.fst
        ∧ dateOf q.2 ∉ s.cv_dict.map Prod.fst
        ∧ dateOf q.2 ∉ s.lda_dict.map Prod.fst) →
      ∃ s', fitPairs L s df pairs = (s', none)
        ∧ s'.n_components = s.n_components
        ∧ s'.random_state = s.random_state
        ∧ s'.tfidf_dict.map Prod.fst
            = s.tfidf_dict.map Prod.fst ++ pairs.map (fun q => dateOf q.2)
        ∧ s'.nmf_dict.map Prod.fst
            = s.nmf_dict.map Prod.fst ++ pairs.map (fun q => dateOf q.2)
        ∧ s'.cv_dict.map Prod.fst
            = s.cv_dict.map Prod.fst ++ pairs.map (fun q => dateOf q.2)
        ∧ s'.lda_dict.map Prod.fst
            = s.lda_dict.map Prod.fst ++ pairs.map (fun q => dateOf q.2)
        ∧ (∀ k, k ∉ pairs.map (fun q => dateOf q.2) →
            dget? s'.tfidf_dict k = dget? s.tfidf_dict k
            ∧ dget? s'.nmf_dict k = dget? s.nmf_dict k
            ∧ dget? s'.cv_dict k = dget? s.cv_dict k
            ∧ dget? s'.lda_dict k = dget? s.lda_dict k)
        ∧ (∀ q ∈ pairs,
            dget? s'.tfidf_dict (dateOf q.2)
              = (L.tfidfFit (tokenizedSlice df q.1 q.2)).map Prod.fst
            ∧ dget? s'.nmf_dict (dateOf q.2)
              = (L.tfidfFit (tokenizedSlice df q.1 q.2)).bind
                  (fun w => L.nmfFit s.n_components s.random_state w.2)
            ∧ dget? s'.cv_dict (dateOf q.2)
              = (L.cvFit (tokenizedSlice df q.1 q.2)).map Prod.fst
            ∧ dget? s'.lda_dict (dateOf q.2)
              = (L.cvFit (tokenizedSlice df q.1 q.2)).bind
                  (fun w => L.ldaFit s.n_components s.random_state w.2)) := by
  intro pairs
  induction pairs with
  | nil =>
    intro s _ _ _
    exact ⟨s, rfl, rfl, rfl, by simp, by simp, by simp, by simp,
      fun k _ => ⟨rfl, rfl, rfl, rfl⟩,
      fun q hq => absurd hq (List.not_mem_nil q)⟩
  | cons p rest ih =>
    intro s hdeg hdup hfresh
    have hd : degenerate (tokenizedSlice df p.1 p.2) = false :=
      hdeg p (List.mem_cons_self p rest)
    have hfp4 := hfresh p (List.mem_cons_self p rest)
    rw [List.map_cons] at hdup
    obtain ⟨hlab, hdup'⟩ := List.nodup_cons.mp hdup
    cases hf : L.tfidfFit (tokenizedSlice df p.1 p.2) with
    | none => simp [(hL.tfidf_none _).mp hf] at hd
    | some qf =>
      obtain ⟨tfidf, tfidf_vecs⟩ := qf
      cases hn : L.nmfFit s.n_components s.random_state tfidf_vecs with
      | none =>
        have hns := hL.nmf_some s.n_components s.random_state tfidf_vecs
        rw [hn] at hns
        simp at hns
      | some nmf =>
        cases hc : L.cvFit (tokenizedSlice df p.1 p.2) with
        | none => simp [(hL.cv_none _).mp hc] at hd
        | some qc =>
          obtain ⟨cv, count_vecs⟩ := qc
          cases hl : L.ldaFit s.n_components s.random_state count_vecs with
          | none =>
            have hls := hL.lda_some s.n_components s.random_state count_vecs
            rw [hl] at hls
            simp at hls
          | some lda =>
            have hstep : fitPairs L s df (p :: rest)
                = fitPairs L { s with
                    tfidf_dict := dinsert s.tfidf_dict (dateOf p.2) tfidf,
                    nmf_dict := dinsert s.nmf_dict (dateOf p.2) nmf,
                    cv_dict := dinsert s.cv_dict (dateOf p.2) cv,
                    lda_dict := dinsert s.lda_dict (dateOf p.2) lda } df rest := by
              simp only [fitPairs, calculate_nmf, calculate_lda, hf, hn, hc, hl]
            have hfresh2 : ∀ q ∈ rest,
                dateOf q.2
                  ∉ (dinsert s.tfidf_dict (dateOf p.2) tfidf).map Prod.fst
                ∧ dateOf q.2
                  ∉ (dinsert s.nmf_dict (dateOf p.2) nmf).map Prod.fst
                ∧ dateOf q.2
                  ∉ (dinsert s.cv_dict (dateOf p.2) cv).map Prod.fst
                ∧ dateOf q.2
                  ∉ (dinsert s.lda_dict (dateOf p.2) lda).map Prod.fst := by
              intro q hq
              have hq4 := hfresh q (List.mem_cons_of_mem p hq)
              have hne : dateOf q.2 ≠ dateOf p.2 := by
                intro he
                exact hlab (he ▸ List.mem_map_of_mem (fun w => dateOf w.2) hq)
              refine ⟨?_, ?_, ?_, ?_⟩
              · rw [map_fst_dinsert _ _ _ hfp4.1]
                simp [hq4.1, hne]
              · rw [map_fst_dinsert _ _ _ hfp4.2.1]
                simp [hq4.2.1, hne]
              · rw [map_fst_dinsert _ _ _ hfp4.2.2.1]
                simp [hq4.2.2.1, hne]
              · rw [map_fst_dinsert _ _ _ hfp4.2.2.2]
                simp [hq4.2.2.2, hne]
            obtain ⟨s', hfp, hnc, hrs, htk, hnk, hck, hlk, hframe, hlook⟩ :=
              ih { s with
                    tfidf_dict := dinsert s.tfidf_dict (dateOf p.2) tfidf,
                    nmf_dict := dinsert s.nmf_dict (dateOf p.2) nmf,
                    cv_dict := dinsert s.cv_dict (dateOf p.2) cv,
                    lda_dict := dinsert s.lda_dict (dateOf p.2) lda }
                (fun q hq => hdeg q (List.mem_cons_of_mem p hq)) hdup' hfresh2
            dsimp only at hnc hrs htk hnk hck hlk hframe hlook
            refine ⟨s', ?_, hnc, hrs, ?_, ?_, ?_, ?_, ?_, ?_⟩
            · rw [hstep]
              exact hfp
            · rw [htk, map_fst_dinsert _ _ _ hfp4.1]
              simp
            · rw [hnk, map_fst_dinsert _ _ _ hfp4.2.1]
              simp
            · rw [hck, map_fst_dinsert _ _ _ hfp4.2.2.1]
              simp
            · rw [hlk, map_fst_dinsert _ _ _ hfp4.2.2.2]
              simp
            · intro k hk
              rw [List.map_cons, List.mem_cons] at hk
              push_neg at hk
              obtain ⟨hk1, hk2⟩ := hk
              obtain ⟨f1, f2, f3, f4⟩ := hframe k hk2
              exact ⟨by rw [f1, dget?_dinsert_ne _ _ _ _ hk1],
                by rw [f2, dget?_dinsert_ne _ _ _ _ hk1],
                by rw [f3, dget?_dinsert_ne _ _ _ _ hk1],
                by rw [f4, dget?_dinsert_ne _ _ _ _ hk1]⟩
            · intro q hq
              rcases List.mem_cons.mp hq with rfl | hqr
              · obtain ⟨f1, f2, f3, f4⟩ := hframe (dateOf q.2) hlab
                refine ⟨?_, ?_, ?_, ?_⟩
                · rw [f1, dget?_dinsert_self, hf]
                  rfl
                · rw [f2, dget?_dinsert_self, hf]
                  simp [hn]
                · rw [f3, dget?_dinsert_self, hc]
                  rfl
                · rw [f4, dget?_dinsert_self, hc]
                  simp [hl]
              · exact hlook q hqr

/-- C2: fitting a freshly constructed series over boundaries `[b0..bn]`
(all periods fittable, pairwise distinct period dates) succeeds and
populates all four model stores — TF-IDF and count weighting, NMF and LDA
decomposition — with exactly the labels `date(b1), ..., date(bn)`, in
processing order (strictly chronological boundary order), and the models
stored under label `date(b[i+1])` are exactly those fitted on the
tokenized half-open slice `[b[i], b[i+1])` of the corpus (upper bound made
exclusive by subtracting one second). -/
theorem c2_fit_populates_store (L : SkLib) (df : Corpus) (dr : List Int)
    (n r : Nat) (hL : GoodLib L)
    (hdeg : ∀ q ∈ adjPairs dr, degenerate (tokenizedSlice df q.1 q.2) = false)
    (hdup : ((adjPairs dr).map (fun q => dateOf q.2)).Nodup) :
    ∃ s', fit L (mkSeries L n r) df dr = (s', none)
      ∧ s'.tfidf_dict.map Prod.fst = dr.tail.map dateOf
      ∧ s'.nmf_dict.map Prod.fst = dr.tail.map dateOf
      ∧ s'.cv_dict.map Prod.fst = dr.tail.map dateOf
      ∧ s'.lda_dict.map Prod.fst = dr.tail.map dateOf
      ∧ (∀ q ∈ adjPairs dr,
          dget? s'.tfidf_dict (dateOf q.2)
            = (L.tfidfFit (tokenizedSlice df q.1 q.2)).map Prod.fst
          ∧ dget? s'.nmf_dict (dateOf q.2)
            = (L.tfidfFit (tokenizedSlice df q.1 q.2)).bind
                (fun w => L.nmfFit n r w.2)
          ∧ dget? s'.cv_dict (dateOf q.2)
            = (L.cvFit (tokenizedSlice df q.1 q.2)).map Prod.fst
          ∧ dget? s'.lda_dict (dateOf q.2)
            = (L.cvFit (tokenizedSlice df q.1 q.2)).bind
                (fun w => L.ldaFit n r w.2)) := by
  obtain ⟨s', hfp, _, _, htk, hnk, hck, hlk, _, hlook⟩ :=
    fitPairs_fresh L hL df (adjPairs dr) (mkSeries L n r) hdeg hdup
      (fun q _ => by simp [mkSeries])
  have hlabels : (adjPairs dr).map (fun q => dateOf q.2) = dr.tail.map dateOf := by
    have hz := adjPairs_map_snd dr
    calc (adjPairs dr).map (fun q => dateOf q.2)
        = ((adjPairs dr).map Prod.snd).map dateOf := by
          rw [List.map_map]
          rfl
      _ = dr.tail.map dateOf := by rw [hz]
  refine ⟨s', hfp, ?_, ?_, ?_, ?_, hlook⟩
  · rw [htk, hlabels]
    simp [mkSeries]
  · rw [hnk, hlabels]
    simp [mkSeries]
  · rw [hck, hlabels]
    simp [mkSeries]
  · rw [hlk, hlabels]
    simp [mkSeries]

theorem c2_witness :
    ∃ s', fit toyL (mkSeries toyL 2 42) dfTest [0, 86400] = (s', none)
      ∧ s'.tfidf_dict.map Prod.fst = [0, 86400].tail.map dateOf
      ∧ s'.nmf_dict.map Prod.fst = [0, 86400].tail.map dateOf
      ∧ s'.cv_dict.map Prod.fst = [0, 86400].tail.map dateOf
      ∧ s'.lda_dict.map Prod.fst = [0, 86400].tail.map dateOf
      ∧ (∀ q ∈ adjPairs [0, 86400],
          dget? s'.tfidf_dict (dateOf q.2)
            = (toyL.tfidfFit (tokenizedSlice dfTest q.1 q.2)).map Prod.fst
          ∧ dget? s'.nmf_dict (dateOf q.2)
            = (toyL.tfidfFit (tokenizedSlice dfTest q.1 q.2)).bind
                (fun w => toyL.nmfFit 2 42 w.2)
          ∧ dget? s'.cv_dict (dateOf q.2)
            = (toyL.cvFit (tokenizedSlice dfTest q.1 q.2)).map Prod.fst
          ∧ dget? s'.lda_dict (dateOf q.2)
            = (toyL.cvFit (tokenizedSlice dfTest q.1 q.2)).bind
                (fun w => toyL.ldaFit 2 42 w.2)) :=
  c2_fit_populates_store toyL dfTest [0, 86400] 2 42 toyL_good
    (by decide) (by decide)

end TweetTopics
